import Mathlib

/-!
Shallow embedding of the desertbit/glue socket library (Go server, JS client)
and proofs about its specification claims.

Go and JavaScript strings are modelled as lists of characters (`Str`).
Every definition mirrors a concrete function of the source tree; the file
ends with the claim theorems.
-/

namespace Glue

/-- Strings of the modelled program (Go / JS strings as character lists). -/
abbrev Str := List Char

/-! ## Value codec (src/utils/utils.go) -/

/-- The value delimiter `&` (constant `delimiter` in utils.go). -/
def delimiter : Char := '&'

/-- `strings.Index(data, "&")`: index of the first delimiter occurrence,
`none` when absent (Go returns `-1`). -/
def strIndexOf (data : Str) (c : Char) : Option Nat :=
  match data with
  | [] => none
  | x :: rest => if x = c then some 0 else (strIndexOf rest c).map (· + 1)

/-- The decimal digit character for a digit value (`'0' + d`). -/
def digitChar (d : Nat) : Char := Char.ofNat (48 + d)

/-- Decimal rendering of a natural number, most significant digit first.
Models `strconv.Itoa` restricted to the non-negative arguments used by
`MarshalValues` (a string length). -/
def itoa (n : Nat) : Str :=
  if n = 0 then ['0'] else (Nat.digits 10 n).reverse.map digitChar

/-- Numeric value of a decimal digit character, `none` for non-digits. -/
def digitVal (c : Char) : Option Nat :=
  if '0' ≤ c ∧ c ≤ '9' then some (c.toNat - 48) else none

/-- Accumulating decimal parse of a digit run; fails on any non-digit. -/
def parseDigitsAux : Str → Nat → Option Nat
  | [], acc => some acc
  | c :: cs, acc => (digitVal c).bind fun d => parseDigitsAux cs (acc * 10 + d)

/-- Decimal parse of a non-empty digit run. -/
def parseDigits : Str → Option Nat
  | [] => none
  | c :: cs => parseDigitsAux (c :: cs) 0

/-- Largest Go `int` (64-bit) value; `strconv.Atoi` fails beyond it. -/
def goMaxInt : Nat := 2 ^ 63 - 1

/-- Model of Go `strconv.Atoi`: optional sign, then a non-empty digit run,
failing on an empty string, a stray character or 64-bit overflow. -/
def atoi (s : Str) : Option Int :=
  match s with
  | [] => none
  | c :: rest =>
    if c = '-' then
      (parseDigits rest).bind fun n =>
        if n ≤ goMaxInt + 1 then some (-(n : Int)) else none
    else if c = '+' then
      (parseDigits rest).bind fun n =>
        if n ≤ goMaxInt then some ((n : Int)) else none
    else
      (parseDigits (c :: rest)).bind fun n =>
        if n ≤ goMaxInt then some ((n : Int)) else none

/-- `utils.UnmarshalValues`: split a length-prefixed pair
`decimal(len first) & first second`. `none` models the Go error return. -/
def UnmarshalValues (data : Str) : Option (Str × Str) :=
  match strIndexOf data delimiter with
  | none => none
  | some pos =>
    match atoi (data.take pos) with
    | none => none
    | some l =>
      let rest := data.drop (pos + 1)
      if l < 0 ∨ l > (rest.length : Int) then none
      else some (rest.take l.toNat, rest.drop l.toNat)

/-- `utils.MarshalValues`: `strconv.Itoa(len(first)) + "&" + first + second`.
The JS `utils.marshalValues` (client/src/utils.js) produces the same string. -/
def MarshalValues (first second : Str) : Str :=
  itoa first.length ++ delimiter :: (first ++ second)

/-- The alphanumeric alphabet of `utils.RandomString`. -/
def alphanum : Str :=
  "0123456789ABCDEFGHIJKLMNOPQRSTUVWXYZabcdefghijklmnopqrstuvwxyz".toList

/-- `utils.RandomString n`: maps `n` random bytes (modelled by the stream
`bytes`, reduced mod 256 to a byte) through `alphanum[b % 62]`. -/
def RandomString (n : Nat) (bytes : Nat → Nat) : Str :=
  (List.range n).map fun i => alphanum.getD (bytes i % 256 % 62) '0'

/-! ## Socket core constants (socket.go) -/

/-- `socketIDLength`: length of the random socket ID. -/
def socketIDLength : Nat := 20

/-- `pingPeriod` in seconds (`30 * time.Second`). -/
def pingPeriod : Nat := 30

/-- `pingResponseTimeout` in seconds (`7 * time.Second`). -/
def pingResponseTimeout : Nat := 7

/-- The main channel name `"m"`. -/
def mainChannelName : Str := ['m']

/-- Socket command `in`. -/
def cmdInit : Str := ['i', 'n']

/-- Socket command `pi`. -/
def cmdPing : Str := ['p', 'i']

/-- Socket command `po`. -/
def cmdPong : Str := ['p', 'o']

/-- Socket command `cl`. -/
def cmdClose : Str := ['c', 'l']

/-- Socket command `iv`. -/
def cmdInvalid : Str := ['i', 'v']

/-- Socket command `dr`. -/
def cmdDontAutoReconnect : Str := ['d', 'r']

/-- Socket command `cd`. -/
def cmdChannelData : Str := ['c', 'd']

/-! ## Init handshake (socket.go `initSocket`) -/

/-- A parsed semantic version (the major/minor/patch of `blang/semver`). -/
structure SemVer where
  major : Nat
  minor : Nat
  patch : Nat
deriving DecidableEq

/-- The version guard of `initSocket`: the client major differs, or the
client minor exceeds the server minor, or the minors are equal and the
client patch exceeds the server patch. -/
def versionUnsupported (cv sv : SemVer) : Bool :=
  (cv.major != sv.major) || decide (cv.minor > sv.minor) ||
    ((cv.minor == sv.minor) && decide (cv.patch > sv.patch))

/-- Effects of the server-side `initSocket` handshake, in order. -/
inductive InitEffect
  | write (frame : Str)
  | sleepSeconds (n : Nat)
  | closeSocket
  | onNewSocket
  | markInitialized
deriving DecidableEq

/-- `json.Marshal(initData{SocketID: id})`: the literal JSON document
`\x7b"socketID":"<id>"\x7d` (socket ids are alphanumeric, so no JSON string
escaping occurs). -/
def jsonSocketID (id : Str) : Str :=
  "\x7b\"socketID\":\"".toList ++ id ++ "\"\x7d".toList

/-- The inner anonymous function of `initSocket`: returns the
`dontAutoReconnect` flag, whether an error occurred, and the effects it
performed. Inputs are the result of `json.Unmarshal` (the client version
string, or `none` on bad JSON) and the `semver.Make` parser `semverOf`. -/
def initSocketInner (jsonVersion : Option Str) (semverOf : Str → Option SemVer)
    (sv : SemVer) (id : Str) : Bool × Bool × List InitEffect :=
  match jsonVersion with
  | none => (false, true, [])
  | some vs =>
    match semverOf vs with
    | none => (false, true, [])
    | some cv =>
      if versionUnsupported cv sv then (true, true, [])
      else (false, false, [InitEffect.write (cmdInit ++ jsonSocketID id)])

/-- `initSocket` (socket.go): on an error from the inner function, write
`dr` and pause one second when `dontAutoReconnect` is set, then close the
socket; on success run the on-new-socket callback and set the initialized
flag only afterwards. -/
def initSocketGo (jsonVersion : Option Str) (semverOf : Str → Option SemVer)
    (sv : SemVer) (id : Str) : List InitEffect :=
  match initSocketInner jsonVersion semverOf sv id with
  | (dar, true, effs) =>
    effs ++
      (if dar then [InitEffect.write cmdDontAutoReconnect,
                    InitEffect.sleepSeconds 1]
       else []) ++ [InitEffect.closeSocket]
  | (_, false, effs) =>
    effs ++ [InitEffect.onNewSocket, InitEffect.markInitialized]

/-! ## AJAX transport (ajaxsocket, part_014) -/

/-- `ajaxPollTimeout` in seconds (`35 * time.Second`). -/
def ajaxPollTimeout : Nat := 35

/-- `ajaxUIDLength`: length of an AJAX session id. -/
def ajaxUIDLength : Nat := 10

/-- `ajaxPollTokenLength`: length of a poll token. -/
def ajaxPollTokenLength : Nat := 7

/-- Poll reply `t` (server-side poll wait timed out). -/
def ajaxPollCmdTimeout : Str := ['t']

/-- Poll reply `c` (session closed). -/
def ajaxPollCmdClosed : Str := ['c']

/-- Go map indexing `m[key]` for the string-keyed maps of the program
(`comma-ok` form: `none` when the key is absent). -/
def mapLookup {β : Type _} : List (Str × β) → Str → Option β
  | [], _ => none
  | p :: rest, key => if p.1 = key then some p.2 else mapLookup rest key

/-- Server-side AJAX session state (the `ajaxsocket.Socket` fields read by
the request handlers). -/
structure AjaxSession where
  remoteAddr : Str
  userAgent : Str
  pollToken : Str
deriving DecidableEq

/-- What the `select` in `pollAjaxRequest` observes first: a frame on the
session's outbound queue, the poll timeout, or the closed signal. -/
inductive PollOutcome
  | frame (data : Str)
  | timeout
  | closed
deriving DecidableEq

/-- Replace the session stored under `uid` (field mutation of the map
entry). -/
def updateSession (m : List (Str × AjaxSession)) (uid : Str) (a : AjaxSession) :
    List (Str × AjaxSession) :=
  m.map fun p => if p.1 = uid then (uid, a) else p

/-- `pollAjaxRequest` (part_014): validate the session id, the user agent
and the poll token (`none` models the HTTP 400 reply), rotate the poll
token to a fresh random 7-character one, then answer with the new token and
a frame, with `t` on timeout, or with `c` when the session closed. -/
def pollAjaxRequest (sessions : List (Str × AjaxSession))
    (uid userAgent data : Str) (tokenBytes : Nat → Nat)
    (outcome : PollOutcome) :
    Option Str × List (Str × AjaxSession) :=
  match mapLookup sessions uid with
  | none => (none, sessions)
  | some a =>
    if a.userAgent ≠ userAgent then (none, sessions)
    else if a.pollToken ≠ data then (none, sessions)
    else
      let newToken := RandomString ajaxPollTokenLength tokenBytes
      let a' := { a with pollToken := newToken }
      let resp :=
        match outcome with
        | .frame d => newToken ++ delimiter :: d
        | .timeout => ajaxPollCmdTimeout
        | .closed => ajaxPollCmdClosed
      (some resp, updateSession sessions uid a')

/-! ## Keep-alive state machine (socket.go) -/

/-- Ping/keep-alive state of a server socket: the `pingRequestActive` flag,
whether each timer is running, and whether the backend stream was closed. -/
structure KeepAlive where
  pingRequestActive : Bool
  pingTimeoutActive : Bool
  pingTimerActive : Bool
  closed : Bool
deriving DecidableEq

/-- `resetPingTimeout` (socket.go): stop the ping-response timer, clear the
flag, restart the 30-second ping timer. -/
def resetPingTimeout (s : KeepAlive) : KeepAlive :=
  { s with pingTimeoutActive := false, pingRequestActive := false,
           pingTimerActive := true }

/-- `sendPing` (socket.go): a no-op while a ping request is active;
otherwise set the flag, start the ping-response timer and write `pi`. -/
def sendPing (s : KeepAlive) : KeepAlive × List Str :=
  if s.pingRequestActive then (s, [])
  else ({ s with pingRequestActive := true, pingTimeoutActive := true }, [cmdPing])

/-- Events observed by a socket's keep-alive machinery. A timer-fire event
only has an effect while that timer is running. -/
inductive SockEvent
  | inbound (frame : Str)
  | pingTimerFire
  | pingTimeoutFire
  | writePressure
deriving DecidableEq

/-- Whether an event is an inbound frame. -/
def SockEvent.isInbound : SockEvent → Bool
  | .inbound _ => true
  | _ => false

/-- One keep-alive step: the read loop resets the ping timeout on any
inbound frame; the expiring ping timer calls `sendPing` (`pingLoop`); a
full write buffer calls `sendPing` (`Socket.write`); the expiring
ping-response timer closes the backend stream (`pingTimeoutHandler`). -/
def stepSocket (s : KeepAlive) (e : SockEvent) : KeepAlive × List Str :=
  if s.closed then (s, [])
  else
    match e with
    | .inbound _ => (resetPingTimeout s, [])
    | .pingTimerFire =>
      if s.pingTimerActive then sendPing { s with pingTimerActive := false }
      else (s, [])
    | .writePressure => sendPing s
    | .pingTimeoutFire =>
      if s.pingTimeoutActive then
        ({ s with pingTimeoutActive := false, closed := true }, [])
      else (s, [])

/-- Run a sequence of keep-alive events, keeping the final state. -/
def runSocket (s : KeepAlive) (es : List SockEvent) : KeepAlive :=
  es.foldl (fun s e => (stepSocket s e).1) s

/-! ## Client runtime (part_006) -/

/-- Client reconnect options (the `DefaultOptions` fields used by
`reconnect()`). -/
structure ClientOptions where
  reconnect : Bool
  reconnectDelay : Nat
  reconnectDelayMax : Nat
  reconnectAttempts : Nat
deriving DecidableEq

/-- Client lifecycle events; `reconnecting` carries the delay (ms) after
which the attempt was scheduled. -/
inductive ClientEv
  | connecting
  | reconnecting (delay : Nat)
  | disconnected
deriving DecidableEq

/-- Whether an event is a `reconnecting` emission. -/
def ClientEv.isReconnecting : ClientEv → Bool
  | .reconnecting _ => true
  | _ => false

/-- The `reconnect()` / `connectSocket()` loop against a permanently
unreachable server: every attempt fails and re-enters `reconnect()`.
`count` is `reconnectCount`; `fuel` bounds the recursion depth. -/
def reconnectRun (opts : ClientOptions) (autoReconnectDisabled : Bool) :
    Nat → Nat → List ClientEv
  | 0, _ => []
  | fuel + 1, count =>
    if (decide (opts.reconnectAttempts > 0) &&
          decide (count > opts.reconnectAttempts)) ||
        !opts.reconnect || autoReconnectDisabled then
      [ClientEv.disconnected]
    else
      let c := count + 1
      let d := min (opts.reconnectDelay * c) opts.reconnectDelayMax
      ClientEv.reconnecting d :: reconnectRun opts autoReconnectDisabled fuel c

/-- Full event trace of a client whose server is permanently unreachable:
the initial `connectSocket` emits `connecting` (count 0), then each failed
attempt goes through `reconnect()`. -/
def unreachableTrace (opts : ClientOptions) (fuel : Nat) : List ClientEv :=
  ClientEv.connecting :: reconnectRun opts false fuel 0

/-- One entry of the client disconnect send buffer. -/
structure BufEntry where
  cmd : Str
  data : Str
  hasDiscardCallback : Bool
deriving DecidableEq

/-- Client-side connection/send state (the part_006 variables read by the
send path). -/
structure ClientState where
  bsExists : Bool
  isReady : Bool
  connected : Bool
  resetSendBufferTimedOut : Bool
  resetSendBufferTimerRunning : Bool
  sendBuffer : List BufEntry
  beforeReadySendBuffer : List Str
deriving DecidableEq

/-- Observable effects of the client send path. -/
inductive SendEffect
  | transmit (data : Str)
  | discardCallback (data : Str)
  | startResetTimer
deriving DecidableEq

/-- The client `send` helper (part_006): drop without a backend socket,
buffer while the init handshake is incomplete, otherwise transmit. -/
def clientSend (st : ClientState) (data : Str) : ClientState × List SendEffect :=
  if !st.bsExists then (st, [])
  else if !st.isReady then
    ({ st with beforeReadySendBuffer := st.beforeReadySendBuffer ++ [data] }, [])
  else (st, [SendEffect.transmit data])

/-- `startResetSendBufferTimeout`: skip when already running or already
timed out. -/
def startResetSendBufferTimeout (st : ClientState) : ClientState × List SendEffect :=
  if st.resetSendBufferTimerRunning || st.resetSendBufferTimedOut then (st, [])
  else ({ st with resetSendBufferTimerRunning := true },
        [SendEffect.startResetTimer])

/-- `sendBuffered` (part_006): 1 when sent immediately, 0 when queued in the
disconnect buffer, -1 when discarded because the reset-send-buffer timeout
already fired (invoking the discard callback if given). -/
def sendBuffered (st : ClientState) (cmd data : Str) (hasDiscardCallback : Bool) :
    Int × ClientState × List SendEffect :=
  if !st.bsExists || !st.connected then
    if st.resetSendBufferTimedOut then
      (-1, st, if hasDiscardCallback then [SendEffect.discardCallback data] else [])
    else
      let r := startResetSendBufferTimeout st
      (0, { r.1 with sendBuffer := r.1.sendBuffer ++ [⟨cmd, data, hasDiscardCallback⟩] },
        r.2)
  else
    let r := clientSend st (cmd ++ data)
    (1, r.1, r.2)

/-- `channel.instance.send` (client/src/channel.js): discard empty (falsy)
data with -1, otherwise `sendBuffered("cd", marshalValues(name, data))`. -/
def channelSend (st : ClientState) (name data : Str) (hasDiscardCallback : Bool) :
    Int × ClientState × List SendEffect :=
  if data = [] then (-1, st, [])
  else sendBuffered st cmdChannelData (MarshalValues name data) hasDiscardCallback

/-- `socket.send` (part_006): forwards to the main channel's send but has no
return statement, so the JS call evaluates to `undefined` (`none`). -/
def socketSend (st : ClientState) (data : Str) (hasDiscardCallback : Bool) :
    Option Int × ClientState × List SendEffect :=
  let r := channelSend st mainChannelName data hasDiscardCallback
  (none, r.2.1, r.2.2)

/-- `channel.emitOnMessage` (client/src/channel.js): returns the handler
invocation `(channel name, message)`, or `none` when no handler runs (empty
name or data, or unknown channel). -/
def emitOnMessage (channels : List Str) (name data : Str) : Option (Str × Str) :=
  if name = [] || data = [] then none
  else if channels.contains name then some (name, data) else none

/-! ## Server socket registry (server.go, socket.go) -/

/-- The server socket registry: socket ids mapped to socket references
(identified here by an abstract token). -/
abbrev Registry := List (Str × Nat)

/-- The id-generation loop of `newSocket`: try candidate random ids until
one is absent from the registry. -/
def genUniqueID (m : Registry) : List Str → Option Str
  | [] => none
  | id :: rest => if (mapLookup m id).isSome then genUniqueID m rest else some id

/-- `newSocket` registry insertion: generate a fresh 20-character id
(regenerating on collision, drawing candidates from the byte streams
`streams`) and add the socket under it. -/
def newSocketRegister (m : Registry) (streams : List (Nat → Nat)) (sock : Nat) :
    Option (Str × Registry) :=
  (genUniqueID m (streams.map (RandomString socketIDLength))).map
    fun id => (id, (id, sock) :: m)

/-- `Server.GetSocket`: registry lookup; `none` models the nil return. -/
def GetSocket (m : Registry) (id : Str) : Option Nat := mapLookup m id

/-- `Socket.onClose`: delete the socket's registry entry (`delete` on the
sockets map). -/
def removeSocket (m : Registry) (id : Str) : Registry :=
  match m with
  | [] => []
  | p :: rest => if p.1 = id then removeSocket rest id else p :: removeSocket rest id

/-- Registry operations performed by other sockets' lifecycles. -/
inductive RegOp
  | insert (id : Str) (sock : Nat)
  | remove (id : Str)
deriving DecidableEq

/-- The registry key an operation touches. -/
def RegOp.key : RegOp → Str
  | .insert id _ => id
  | .remove id => id

/-- Apply one registry operation. -/
def applyRegOp (m : Registry) : RegOp → Registry
  | .insert id sock => (id, sock) :: m
  | .remove id => removeSocket m id

/-- Apply a sequence of registry operations. -/
def applyRegOps (m : Registry) (ops : List RegOp) : Registry :=
  ops.foldl applyRegOp m

/-! ### Codec lemmas -/

theorem digitVal_digitChar {d : Nat} (h : d < 10) :
    digitVal (digitChar d) = some d := by
  interval_cases d <;> decide

theorem digitChar_ne_delim {d : Nat} (h : d < 10) : digitChar d ≠ delimiter := by
  interval_cases d <;> decide

theorem digitChar_ne_minus {d : Nat} (h : d < 10) : digitChar d ≠ '-' := by
  interval_cases d <;> decide

theorem digitChar_ne_plus {d : Nat} (h : d < 10) : digitChar d ≠ '+' := by
  interval_cases d <;> decide

theorem itoa_digits {n : Nat} {c : Char} (hc : c ∈ itoa n) :
    ∃ d, d < 10 ∧ c = digitChar d := by
  unfold itoa at hc
  split at hc
  · rw [List.mem_singleton] at hc
    subst hc
    exact ⟨0, by omega, rfl⟩
  · rcases List.mem_map.mp hc with ⟨d, hd, rfl⟩
    exact ⟨d, Nat.digits_lt_base (by omega) (List.mem_reverse.mp hd), rfl⟩

theorem strIndexOf_append_of_not_mem (l r : Str) (c : Char)
    (h : ∀ x ∈ l, x ≠ c) :
    strIndexOf (l ++ c :: r) c = some l.length := by
  induction l with
  | nil => simp [strIndexOf]
  | cons x xs ih =>
    have hx : x ≠ c := h x (by simp)
    simp only [List.cons_append, strIndexOf, if_neg hx, List.append_eq]
    rw [ih (fun y hy => h y (by simp [hy]))]
    rfl

theorem parseDigitsAux_map (l : List Nat) (acc : Nat)
    (h : ∀ d ∈ l, d < 10) :
    parseDigitsAux (l.map digitChar) acc =
      some (l.foldl (fun a d => a * 10 + d) acc) := by
  induction l generalizing acc with
  | nil => rfl
  | cons d ds ih =>
    have hd : d < 10 := h d (by simp)
    simp only [List.map_cons, parseDigitsAux, digitVal_digitChar hd,
      Option.bind_some]
    exact ih (acc * 10 + d) (fun x hx => h x (by simp [hx]))

theorem foldl_reverse_digits (n : Nat) :
    (Nat.digits 10 n).reverse.foldl (fun a d => a * 10 + d) 0 = n := by
  rw [List.foldl_reverse]
  have key : ∀ L : List Nat,
      L.foldr (fun d a => a * 10 + d) 0 = Nat.ofDigits 10 L := by
    intro L
    induction L with
    | nil => simp [Nat.ofDigits]
    | cons d ds ih =>
      simp only [List.foldr_cons, ih, Nat.ofDigits_cons]
      ring
  calc (Nat.digits 10 n).foldr (fun d a => a * 10 + d) 0
      = Nat.ofDigits 10 (Nat.digits 10 n) := key _
    _ = n := by exact_mod_cast Nat.ofDigits_digits 10 n

theorem parseDigits_itoa (n : Nat) : parseDigits (itoa n) = some n := by
  by_cases h0 : n = 0
  · subst h0; decide
  · unfold itoa
    rw [if_neg h0]
    have hne : (Nat.digits 10 n).reverse.map digitChar ≠ [] := by
      simp [Nat.digits_ne_nil_iff_ne_zero.mpr h0]
    cases hl : (Nat.digits 10 n).reverse.map digitChar with
    | nil => exact absurd hl hne
    | cons c cs =>
      have : parseDigitsAux ((Nat.digits 10 n).reverse.map digitChar) 0 =
          some ((Nat.digits 10 n).reverse.foldl (fun a d => a * 10 + d) 0) := by
        apply parseDigitsAux_map
        intro d hd
        exact Nat.digits_lt_base (by omega) (List.mem_reverse.mp hd)
      rw [foldl_reverse_digits] at this
      rw [hl] at this
      simpa [parseDigits] using this

theorem atoi_itoa {n : Nat} (h : n ≤ goMaxInt) : atoi (itoa n) = some (n : Int) := by
  have hp := parseDigits_itoa n
  cases hl : itoa n with
  | nil => rw [hl] at hp; simp [parseDigits] at hp
  | cons c cs =>
    have hcmem : c ∈ itoa n := by rw [hl]; simp
    rcases itoa_digits hcmem with ⟨d, hd, rfl⟩
    rw [hl] at hp
    simp only [atoi, if_neg (digitChar_ne_minus hd), if_neg (digitChar_ne_plus hd),
      hp, Option.some_bind]
    rw [if_pos h]

theorem itoa_no_delim (n : Nat) : ∀ x ∈ itoa n, x ≠ delimiter := by
  intro x hx
  rcases itoa_digits hx with ⟨d, hd, rfl⟩
  exact digitChar_ne_delim hd

theorem drop_succ_append (l r : Str) (c : Char) :
    (l ++ c :: r).drop (l.length + 1) = r := by
  have : l ++ c :: r = (l ++ [c]) ++ r := by simp
  rw [this]
  have hlen : (l ++ [c]).length = l.length + 1 := by simp
  rw [← hlen, List.drop_left]

/-- C1: for all strings `a`, `b` (with `len a < 2^31` as the spec quantifies),
`UnmarshalValues (MarshalValues a b) = (a, b)` without error, where
`MarshalValues a b` is the decimal length of `a`, then `&`, then `a`, then `b`. -/
theorem marshal_unmarshal_roundtrip (a b : Str) (h : a.length < 2 ^ 31) :
    UnmarshalValues (MarshalValues a b) = some (a, b) := by
  have hmax : a.length ≤ goMaxInt := by
    have h1 : (2 : Nat) ^ 31 ≤ 2 ^ 63 - 1 := by norm_num
    unfold goMaxInt
    omega
  have hidx : strIndexOf (itoa a.length ++ delimiter :: (a ++ b)) delimiter =
      some (itoa a.length).length :=
    strIndexOf_append_of_not_mem _ _ _ (itoa_no_delim a.length)
  have hcond : ¬((a.length : Int) < 0 ∨ (a.length : Int) > ((a ++ b).length : Int)) := by
    push_neg
    constructor
    · exact Int.natCast_nonneg _
    · simp only [List.length_append]
      exact_mod_cast Nat.le_add_right _ _
  simp only [MarshalValues, UnmarshalValues, hidx, List.take_left,
    atoi_itoa hmax, drop_succ_append]
  rw [if_neg hcond]
  simp [Int.toNat_natCast, List.take_left, List.drop_left]

/-- C1 witness: the round trip at `a = "first"`, `b = "second"`. -/
theorem marshal_unmarshal_roundtrip_witness :
    ("first".toList.length < 2 ^ 31) ∧
      UnmarshalValues (MarshalValues "first".toList "second".toList) =
        some ("first".toList, "second".toList) :=
  ⟨by norm_num, marshal_unmarshal_roundtrip _ _ (by norm_num)⟩

/-- C3: `UnmarshalValues data` errors exactly when the data has no `&`
delimiter, or the prefix before the first `&` does not parse as an integer,
or the parsed length is negative or exceeds the remaining data; moreover
`UnmarshalValues "11&firstsecond" = ("firstsecond", "")` with no error and
`UnmarshalValues "12&firstsecond"` errors. -/
theorem unmarshal_error_conditions :
    (∀ data : Str,
      UnmarshalValues data = none ↔
        strIndexOf data delimiter = none ∨
        ∃ pos, strIndexOf data delimiter = some pos ∧
          (atoi (data.take pos) = none ∨
           ∃ l, atoi (data.take pos) = some l ∧
             (l < 0 ∨ l > (((data.drop (pos + 1)).length : Int))))) ∧
    UnmarshalValues "11&firstsecond".toList = some ("firstsecond".toList, []) ∧
    UnmarshalValues "12&firstsecond".toList = none := by
  refine ⟨?_, by decide, by decide⟩
  intro data
  cases h1 : strIndexOf data delimiter with
  | none => simp [UnmarshalValues, h1]
  | some pos =>
    cases h2 : atoi (data.take pos) with
    | none => simp [UnmarshalValues, h1, h2]
    | some l =>
      by_cases h3 : l < 0 ∨ l > (((data.drop (pos + 1)).length : Int))
      all_goals
        have hlen : (List.drop (pos + 1) data).length = data.length - (pos + 1) :=
          List.length_drop _ _
      · simp [UnmarshalValues, h1, h2, if_pos h3]
        rw [hlen] at h3
        omega
      · simp [UnmarshalValues, h1, h2, if_neg h3]
        rw [hlen] at h3
        omega

/-- C2: on an `in` frame whose payload parses to a semver client version,
a differing major, a larger client minor, or an equal minor with a larger
client patch makes the server write `dr`, pause one second so the frame
flushes, and close the socket; otherwise the server replies `in` with the
socket-id JSON, invokes the new-socket callback and marks the socket
initialized only after the callback returns. -/
theorem initSocket_version_negotiation (semverOf : Str → Option SemVer)
    (vs id : Str) (cv sv : SemVer) (h : semverOf vs = some cv) :
    (versionUnsupported cv sv = true ↔
      (cv.major ≠ sv.major ∨ cv.minor > sv.minor ∨
        (cv.minor = sv.minor ∧ cv.patch > sv.patch))) ∧
    (versionUnsupported cv sv = true →
      initSocketGo (some vs) semverOf sv id =
        [InitEffect.write cmdDontAutoReconnect, InitEffect.sleepSeconds 1,
         InitEffect.closeSocket]) ∧
    (versionUnsupported cv sv = false →
      initSocketGo (some vs) semverOf sv id =
        [InitEffect.write (cmdInit ++ jsonSocketID id), InitEffect.onNewSocket,
         InitEffect.markInitialized]) := by
  refine ⟨?_, ?_, ?_⟩
  · simp only [versionUnsupported, Bool.or_eq_true, bne_iff_ne, ne_eq,
      decide_eq_true_eq, Bool.and_eq_true, beq_iff_eq]
    tauto
  · intro hv
    simp [initSocketGo, initSocketInner, h, hv]
  · intro hv
    simp [initSocketGo, initSocketInner, h, hv]

/-- C2 witness: client version 2.0.0 against server 1.9.1 receives `dr`,
the one-second pause, then the close. -/
theorem initSocket_version_negotiation_witness :
    initSocketGo (some "2.0.0".toList) (fun _ => some ⟨2, 0, 0⟩) ⟨1, 9, 1⟩
        "A".toList =
      [InitEffect.write cmdDontAutoReconnect, InitEffect.sleepSeconds 1,
       InitEffect.closeSocket] :=
  (initSocket_version_negotiation (fun _ => some ⟨2, 0, 0⟩) "2.0.0".toList
    "A".toList ⟨2, 0, 0⟩ ⟨1, 9, 1⟩ rfl).2.1 (by decide)

/-- C9 counterexample: on an init payload that cannot be parsed the code
closes the socket without ever writing the `dr` frame, refuting the claim
that every handshake failure sends `dr` and waits before closing. -/
theorem initSocket_bad_payload_counterexample :
    initSocketGo none (fun _ => none) ⟨1, 9, 1⟩ ['A'] =
        [InitEffect.closeSocket] ∧
      InitEffect.write cmdDontAutoReconnect ∉
        initSocketGo none (fun _ => none) ⟨1, 9, 1⟩ ['A'] := by
  decide

/-- C9 amended: on a protocol version mismatch the server sends `dr`, waits
one second and closes; on an init payload that cannot be parsed (bad JSON,
or a version string `semver.Make` rejects) the server closes the socket
without sending `dr`. -/
theorem initSocket_failure_behaviour (semverOf : Str → Option SemVer)
    (sv : SemVer) (id : Str) :
    (∀ vs cv, semverOf vs = some cv → versionUnsupported cv sv = true →
      initSocketGo (some vs) semverOf sv id =
        [InitEffect.write cmdDontAutoReconnect, InitEffect.sleepSeconds 1,
         InitEffect.closeSocket]) ∧
    initSocketGo none semverOf sv id = [InitEffect.closeSocket] ∧
    (∀ vs, semverOf vs = none →
      initSocketGo (some vs) semverOf sv id = [InitEffect.closeSocket]) := by
  refine ⟨?_, ?_, ?_⟩
  · intro vs cv hvs hv
    simp [initSocketGo, initSocketInner, hvs, hv]
  · simp [initSocketGo, initSocketInner]
  · intro vs hvs
    simp [initSocketGo, initSocketInner, hvs]

/-- C9 witness: the amended behaviour at a concrete version mismatch and at
a concrete unparseable version string. -/
theorem initSocket_failure_behaviour_witness :
    initSocketGo (some "2.0.0".toList) (fun _ => some ⟨2, 0, 0⟩) ⟨1, 9, 1⟩
        ['A'] =
      [InitEffect.write cmdDontAutoReconnect, InitEffect.sleepSeconds 1,
       InitEffect.closeSocket] ∧
    initSocketGo (some ['x']) (fun _ => none) ⟨1, 9, 1⟩ ['A'] =
      [InitEffect.closeSocket] :=
  ⟨(initSocket_failure_behaviour (fun _ => some ⟨2, 0, 0⟩) ⟨1, 9, 1⟩ ['A']).1
      "2.0.0".toList ⟨2, 0, 0⟩ rfl (by decide),
   (initSocket_failure_behaviour (fun _ => none) ⟨1, 9, 1⟩ ['A']).2.2 ['x'] rfl⟩

/-- C4: an AJAX poll `o<session-id>&<poll-token>` is answered 400 unless the
session id exists, the request user agent equals the stored one and the
supplied token equals the current poll token; on success the poll token is
replaced by a fresh random 7-character token and the reply is the new
token, `&` and the frame, or `c` when the session closed, or `t` on the
35-second timeout; afterwards the session stores the rotated token. -/
theorem pollAjax_behaviour (sessions : List (Str × AjaxSession))
    (uid userAgent data : Str) (tokenBytes : Nat → Nat)
    (outcome : PollOutcome) :
    (mapLookup sessions uid = none →
      pollAjaxRequest sessions uid userAgent data tokenBytes outcome =
        (none, sessions)) ∧
    (∀ a, mapLookup sessions uid = some a → a.userAgent ≠ userAgent →
      pollAjaxRequest sessions uid userAgent data tokenBytes outcome =
        (none, sessions)) ∧
    (∀ a, mapLookup sessions uid = some a → a.pollToken ≠ data →
      pollAjaxRequest sessions uid userAgent data tokenBytes outcome =
        (none, sessions)) ∧
    (∀ a, mapLookup sessions uid = some a → a.userAgent = userAgent →
      a.pollToken = data →
      (RandomString ajaxPollTokenLength tokenBytes).length =
          ajaxPollTokenLength ∧
        pollAjaxRequest sessions uid userAgent data tokenBytes outcome =
          (some (match outcome with
                 | .frame d =>
                   RandomString ajaxPollTokenLength tokenBytes ++ delimiter :: d
                 | .timeout => ajaxPollCmdTimeout
                 | .closed => ajaxPollCmdClosed),
           updateSession sessions uid
             { a with pollToken := RandomString ajaxPollTokenLength tokenBytes })) ∧
    ajaxPollTimeout = 35 := by
  refine ⟨?_, ?_, ?_, ?_, rfl⟩
  · intro hlk
    simp [pollAjaxRequest, hlk]
  · intro a hlk hua
    simp [pollAjaxRequest, hlk, hua]
  · intro a hlk htok
    by_cases hua : a.userAgent = userAgent
    · simp [pollAjaxRequest, hlk, hua, htok]
    · simp [pollAjaxRequest, hlk, hua]
  · intro a hlk hua htok
    refine ⟨by simp [RandomString], ?_⟩
    simp [pollAjaxRequest, hlk, hua, htok]

/-- C4 witness: a valid poll on a one-session map rotates the token and
answers `t` on timeout. -/
theorem pollAjax_behaviour_witness :
    (RandomString ajaxPollTokenLength (fun _ => 0)).length =
        ajaxPollTokenLength ∧
      pollAjaxRequest [(['u'], ⟨['r'], ['U'], ['t', 'k']⟩)] ['u'] ['U']
          ['t', 'k'] (fun _ => 0) PollOutcome.timeout =
        (some ajaxPollCmdTimeout,
         updateSession [(['u'], ⟨['r'], ['U'], ['t', 'k']⟩)] ['u']
           { remoteAddr := ['r'], userAgent := ['U'],
             pollToken := RandomString ajaxPollTokenLength (fun _ => 0) }) :=
  (pollAjax_behaviour [(['u'], ⟨['r'], ['U'], ['t', 'k']⟩)] ['u'] ['U']
      ['t', 'k'] (fun _ => 0) PollOutcome.timeout).2.2.2.1
    ⟨['r'], ['U'], ['t', 'k']⟩ rfl rfl rfl

theorem runSocket_closes_aux (es : List SockEvent) (s : KeepAlive)
    (hinv : s.closed = true ∨
      (s.pingRequestActive = true ∧ s.pingTimeoutActive = true))
    (hno : ∀ e ∈ es, e.isInbound = false) :
    (runSocket s (es ++ [SockEvent.pingTimeoutFire])).closed = true := by
  induction es generalizing s with
  | nil =>
    rcases hinv with hc | ⟨hreq, hto⟩
    · simp [runSocket, stepSocket, hc]
    · by_cases hc : s.closed = true
      · simp [runSocket, stepSocket, hc]
      · simp only [Bool.not_eq_true] at hc
        simp [runSocket, stepSocket, hc, hto]
  | cons e es ih =>
    simp only [List.cons_append, runSocket, List.foldl_cons]
    have hstep : ((stepSocket s e).1.closed = true ∨
        ((stepSocket s e).1.pingRequestActive = true ∧
          (stepSocket s e).1.pingTimeoutActive = true)) := by
      rcases hinv with hc | ⟨hreq, hto⟩
      · left
        simp [stepSocket, hc]
      · by_cases hc : s.closed = true
        · left
          simp [stepSocket, hc]
        · simp only [Bool.not_eq_true] at hc
          have hne : e.isInbound = false := hno e (by simp)
          cases e with
          | inbound f => simp [SockEvent.isInbound] at hne
          | pingTimerFire =>
            right
            by_cases ht : s.pingTimerActive = true
            · simp [stepSocket, hc, ht, sendPing, hreq, hto]
            · simp only [Bool.not_eq_true] at ht
              simp [stepSocket, hc, ht, hreq, hto]
          | pingTimeoutFire =>
            simp [stepSocket, hc, hto]
          | writePressure =>
            right
            simp [stepSocket, hc, sendPing, hreq, hto]
    exact ih _ hstep (fun x hx => hno x (by simp [hx]))

/-- C5: every inbound frame stops the ping-response timer, clears the
ping-request-active flag and restarts the (30-second) ping timer; sending a
ping while a request is active is a no-op; and once a ping was sent, if the
(7-second) ping-response timer fires before any inbound frame arrives, the
backend stream ends up closed. -/
theorem keepAlive_behaviour :
    (∀ (s : KeepAlive) (frame : Str), s.closed = false →
      stepSocket s (SockEvent.inbound frame) =
        ({ s with pingTimeoutActive := false, pingRequestActive := false,
                  pingTimerActive := true }, [])) ∧
    (∀ s : KeepAlive, s.pingRequestActive = true → sendPing s = (s, [])) ∧
    (∀ (s : KeepAlive) (es : List SockEvent),
      s.pingRequestActive = true → s.pingTimeoutActive = true →
      (∀ e ∈ es, e.isInbound = false) →
      (runSocket s (es ++ [SockEvent.pingTimeoutFire])).closed = true) ∧
    pingPeriod = 30 ∧ pingResponseTimeout = 7 := by
  refine ⟨?_, ?_, ?_, rfl, rfl⟩
  · intro s frame hc
    simp [stepSocket, hc, resetPingTimeout]
  · intro s hreq
    simp [sendPing, hreq]
  · intro s es hreq hto hno
    exact runSocket_closes_aux es s (Or.inr ⟨hreq, hto⟩) hno

/-- C5 witness: a socket awaiting a pong, across a ping-timer fire and then
the ping-response timer expiry, ends up closed; plus the concrete inbound
reset and the `sendPing` no-op. -/
theorem keepAlive_behaviour_witness :
    stepSocket ⟨true, true, false, false⟩ (SockEvent.inbound ['p', 'o']) =
        (⟨false, false, true, false⟩, []) ∧
      sendPing ⟨true, true, false, false⟩ = (⟨true, true, false, false⟩, []) ∧
      (runSocket ⟨true, true, false, false⟩
          ([SockEvent.pingTimerFire] ++ [SockEvent.pingTimeoutFire])).closed =
        true :=
  ⟨keepAlive_behaviour.1 ⟨true, true, false, false⟩ ['p', 'o'] rfl,
   keepAlive_behaviour.2.1 ⟨true, true, false, false⟩ rfl,
   keepAlive_behaviour.2.2.1 ⟨true, true, false, false⟩ [SockEvent.pingTimerFire]
     rfl rfl (by decide)⟩

/-- C6: at a connected, initialized socket the main-channel send transmits
the frame and returns 1, and after the reset-send-buffer timeout has fired
a disconnected send returns -1 and invokes its discard callback — but the
public `socket.send` wrapper discards the return value of
`mainChannel.send`, so the call evaluates to `undefined` (`none`), against
its own documented return codes 1 / 0 / -1. -/
theorem socketSend_return_value_bug :
    (channelSend ⟨true, true, true, false, false, [], []⟩ mainChannelName
        "hello".toList false).1 = 1 ∧
      (channelSend ⟨true, true, true, false, false, [], []⟩ mainChannelName
          "hello".toList false).2.2 =
        [SendEffect.transmit
          (cmdChannelData ++ MarshalValues mainChannelName "hello".toList)] ∧
      (socketSend ⟨true, true, true, false, false, [], []⟩ "hello".toList
          false).1 = none ∧
      sendBuffered ⟨true, true, false, true, false, [], []⟩ cmdChannelData
          "x".toList true =
        (-1, ⟨true, true, false, true, false, [], []⟩,
          [SendEffect.discardCallback "x".toList]) :=
  ⟨rfl, rfl, rfl, rfl⟩

/-- C7 counterexample: with `reconnectAttempts = 3` (delays 1000 ms / 5000
ms) and a permanently unreachable server the client goes through four
`reconnecting` cycles, not three: `reconnect()` only stops once
`reconnectCount` strictly exceeds `reconnectAttempts`. -/
theorem reconnect_three_cycles_counterexample :
    (unreachableTrace ⟨true, 1000, 5000, 3⟩ 8).countP ClientEv.isReconnecting =
        4 ∧
      ¬((unreachableTrace ⟨true, 1000, 5000, 3⟩ 8).countP
          ClientEv.isReconnecting = 3) := by
  decide

/-- C7 amended: a client with `reconnectAttempts = 3` and a permanently
unreachable server emits exactly one `connecting`, then `reconnectAttempts
+ 1 = 4` `reconnecting` cycles, then `disconnected`; attempt `i` (counted
from 1) is scheduled after `min (reconnectDelay * i) reconnectDelayMax`. -/
theorem reconnect_attempts3_trace (d dm : Nat) :
    unreachableTrace ⟨true, d, dm, 3⟩ 8 =
      [ClientEv.connecting,
       ClientEv.reconnecting (min (d * 1) dm),
       ClientEv.reconnecting (min (d * 2) dm),
       ClientEv.reconnecting (min (d * 3) dm),
       ClientEv.reconnecting (min (d * 4) dm),
       ClientEv.disconnected] := rfl

theorem genUniqueID_mem {m : Registry} {cands : List Str} {id : Str}
    (h : genUniqueID m cands = some id) : id ∈ cands := by
  induction cands with
  | nil => simp [genUniqueID] at h
  | cons c cs ih =>
    by_cases hc : (mapLookup m c).isSome = true
    · simp only [genUniqueID, if_pos hc] at h
      exact List.mem_cons_of_mem _ (ih h)
    · simp only [genUniqueID, if_neg hc, Option.some.injEq] at h
      subst h
      exact List.mem_cons_self _ _

theorem genUniqueID_fresh {m : Registry} {cands : List Str} {id : Str}
    (h : genUniqueID m cands = some id) : mapLookup m id = none := by
  induction cands with
  | nil => simp [genUniqueID] at h
  | cons c cs ih =>
    by_cases hc : (mapLookup m c).isSome = true
    · simp only [genUniqueID, if_pos hc] at h
      exact ih h
    · simp only [genUniqueID, if_neg hc, Option.some.injEq] at h
      subst h
      exact Option.not_isSome_iff_eq_none.mp hc

theorem lookup_removeSocket_self (m : Registry) (id : Str) :
    mapLookup (removeSocket m id) id = none := by
  induction m with
  | nil => rfl
  | cons p rest ih =>
    by_cases hp : p.1 = id
    · simpa [removeSocket, hp] using ih
    · simpa [removeSocket, mapLookup, hp] using ih

theorem lookup_removeSocket_ne {k id : Str} (m : Registry) (h : k ≠ id) :
    mapLookup (removeSocket m k) id = mapLookup m id := by
  induction m with
  | nil => rfl
  | cons p rest ih =>
    by_cases hp : p.1 = k
    · simp [removeSocket, mapLookup, hp, h, ih]
    · by_cases hid : p.1 = id
      · simp [removeSocket, mapLookup, hp, hid, Ne.symm h]
      · simp [removeSocket, mapLookup, hp, hid, ih]

theorem lookup_applyRegOps_other {id : Str} (ops : List RegOp) (m : Registry)
    (h : ∀ op ∈ ops, op.key ≠ id) :
    mapLookup (applyRegOps m ops) id = mapLookup m id := by
  induction ops generalizing m with
  | nil => rfl
  | cons op ops ih =>
    have hrest : ∀ x ∈ ops, RegOp.key x ≠ id := fun x hx => h x (by simp [hx])
    cases op with
    | insert k v =>
      have hop : k ≠ id := h (RegOp.insert k v) (by simp)
      simp only [applyRegOps, List.foldl_cons, applyRegOp] at *
      rw [ih _ hrest]
      simp [mapLookup, hop]
    | remove k =>
      have hop : k ≠ id := h (RegOp.remove k) (by simp)
      simp only [applyRegOps, List.foldl_cons, applyRegOp] at *
      rw [ih _ hrest, lookup_removeSocket_ne _ hop]

/-- C8: `newSocket` inserts the socket under a fresh (non-colliding) random
20-character id; `GetSocket id` returns the socket from insertion on, and
keeps doing so while other sockets register and unregister; after the close
handler deletes the entry, `GetSocket id` returns `none`. -/
theorem socket_registry_lifecycle (m : Registry) (streams : List (Nat → Nat))
    (sock : Nat) (id : Str) (m' : Registry)
    (h : newSocketRegister m streams sock = some (id, m')) :
    mapLookup m id = none ∧
    id.length = socketIDLength ∧
    GetSocket m' id = some sock ∧
    (∀ ops : List RegOp, (∀ op ∈ ops, op.key ≠ id) →
      GetSocket (applyRegOps m' ops) id = some sock) ∧
    GetSocket (removeSocket m' id) id = none := by
  rcases Option.map_eq_some'.mp h with ⟨id0, hgen, heq⟩
  have h1 : id = id0 := (Prod.ext_iff.mp heq.symm).1
  have h2 : m' = (id0, sock) :: m := (Prod.ext_iff.mp heq.symm).2
  subst h1
  subst h2
  refine ⟨genUniqueID_fresh hgen, ?_, ?_, ?_, ?_⟩
  · rcases List.mem_map.mp (genUniqueID_mem hgen) with ⟨s, _, rfl⟩
    simp [RandomString]
  · simp [GetSocket, mapLookup]
  · intro ops hops
    rw [GetSocket, lookup_applyRegOps_other ops _ hops]
    simp [mapLookup]
  · exact lookup_removeSocket_self _ _

/-- C8 witness: a socket registered into the empty registry is found by
`GetSocket` and gone after removal. -/
theorem socket_registry_lifecycle_witness :
    GetSocket [(RandomString socketIDLength (fun _ => 0), 5)]
        (RandomString socketIDLength (fun _ => 0)) = some 5 ∧
      GetSocket
          (removeSocket [(RandomString socketIDLength (fun _ => 0), 5)]
            (RandomString socketIDLength (fun _ => 0)))
          (RandomString socketIDLength (fun _ => 0)) = none :=
  ⟨(socket_registry_lifecycle [] [fun _ => 0] 5
      (RandomString socketIDLength (fun _ => 0))
      [(RandomString socketIDLength (fun _ => 0), 5)] rfl).2.2.1,
   (socket_registry_lifecycle [] [fun _ => 0] 5
      (RandomString socketIDLength (fun _ => 0))
      [(RandomString socketIDLength (fun _ => 0), 5)] rfl).2.2.2.2⟩

/-- C10: in the JS client a channel send with an empty (falsy) data string
returns -1 and transmits nothing, in every state including a connected one,
and an incoming channel-data frame whose decoded message part is empty
never invokes the channel's onMessage handler. -/
theorem empty_messages_dropped :
    (∀ (st : ClientState) (name : Str) (hasDiscardCallback : Bool),
      channelSend st name [] hasDiscardCallback = (-1, st, [])) ∧
    (∀ (channels : List Str) (name : Str),
      emitOnMessage channels name [] = none) := by
  constructor
  · intro st name hasDiscardCallback
    rfl
  · intro channels name
    simp [emitOnMessage]

end Glue
